import Mathlib

/-!
# GravityAssist N-body integrator: verification of the worker core

Shallow embedding of the physics workers of the GravityAssist repository.
The repository contains two independent worker implementations:

* the "optimized" typed-array worker (`computeAccelerations`, `integrateRK4`,
  `integrateLeapfrog`, `simulate`, `onmessage`), kept here under names matching
  the source; its parallel `Float64Array`s `px/py/pz`, `vx/vy/vz`, `mass` are
  bundled as lists of `Vec3`/scalars, and its in-place index loops are embedded
  as `inPlaceMap` folds over an explicit index order so that the
  "simultaneous update" claims are about the actual loop structure;
* the object-array worker in `public/physicsWorker.js`, which itself contains
  a newer RK4 worker (`calculateAcceleration`, `rk4Step`, `simulate`) and a
  legacy worker (`legacyCalculateAcceleration`) whose kernel divides the pair
  force by the body's own mass.

JavaScript numbers are modelled as elements of a linear ordered field
(instantiated at `ℝ` for the numeric claims); `Math.sqrt` is an opaque
function parameter `sqrt`, instantiated at `Real.sqrt`.  JS division by zero
(`NaN`) is modelled by Lean's total division where `x / 0 = 0`.
-/

namespace GravityAssist

/-- A 3D vector: models the `{x, y, z}` objects of the object worker and one
index of the parallel `px/py/pz` (or `vx/vy/vz`) arrays of the typed-array
worker. -/
@[ext]
structure Vec3 (R : Type) where
  x : R
  y : R
  z : R
deriving DecidableEq

instance {R : Type} [Zero R] : Zero (Vec3 R) :=
  ⟨⟨0, 0, 0⟩⟩

instance {R : Type} [Add R] : Add (Vec3 R) :=
  ⟨fun a b => ⟨a.x + b.x, a.y + b.y, a.z + b.z⟩⟩

instance {R : Type} [Sub R] : Sub (Vec3 R) :=
  ⟨fun a b => ⟨a.x - b.x, a.y - b.y, a.z - b.z⟩⟩

instance {R : Type} [Mul R] : SMul R (Vec3 R) :=
  ⟨fun c v => ⟨c * v.x, c * v.y, c * v.z⟩⟩

instance {R : Type} [AddCommMonoid R] : AddCommMonoid (Vec3 R) where
  add_assoc a b c := by ext <;> exact add_assoc ..
  zero_add a := by ext <;> exact zero_add ..
  add_zero a := by ext <;> exact add_zero ..
  add_comm a b := by ext <;> exact add_comm ..
  nsmul := nsmulRec

/-- A simulated body: opaque string id, scalar mass, position and velocity. -/
@[ext]
structure Body (R : Type) where
  id : String
  mass : R
  position : Vec3 R
  velocity : Vec3 R
deriving DecidableEq

/-- Placeholder element used for the (never observed) out-of-range reads of
the embedded index loops. -/
def dummyBody (R : Type) [Zero R] : Body R :=
  ⟨"", 0, 0, 0⟩

section Kernels

variable {R : Type} [LinearOrderedField R] (sqrt : R → R)

/-- `SOFTENING_SQ = 0.000001` of the typed-array worker, exactly `10⁻⁶`. -/
def SOFTENING_SQ : R := 1 / 1000000

/-- One inner-loop iteration of `computeAccelerations` in the typed-array
worker: the contribution of source body `j` (mass `mj`, position `pj`)
to the acceleration of body `i` at `posi`.  `distSq` includes the softening
term, `invDist3 = 1 / (distSq * sqrt distSq)` and `f = G * mass[j] * invDist3`. -/
def accelContrib (g mj : R) (posi pj : Vec3 R) : Vec3 R :=
  let dx := pj.x - posi.x
  let dy := pj.y - posi.y
  let dz := pj.z - posi.z
  let distSq := dx * dx + dy * dy + dz * dz + SOFTENING_SQ
  let dist := sqrt distSq
  let invDist3 := 1 / (distSq * dist)
  let f := g * mj * invDist3
  ⟨f * dx, f * dy, f * dz⟩

/-- `computeAccelerations` of the typed-array worker: for each `i < n` the
inner loop runs over all `j < n`, skips `j = i` (`if (i === j) continue`),
and accumulates `accelContrib` into `(ax, ay, az)` starting from zero. -/
def computeAccelerations (g : R) (pos : List (Vec3 R)) (ms : List R) : List (Vec3 R) :=
  (List.range pos.length).map (fun i =>
    (List.range pos.length).foldl
      (fun acc j =>
        if i = j then acc
        else acc + accelContrib sqrt g (ms.getD j 0) (pos.getD i 0) (pos.getD j 0))
      0)

/-- The squared distance `|pj − posi|²` of the spec's force formula (the
`dx*dx + dy*dy + dz*dz` expression of both kernels, before softening). -/
def dist2 (posi pj : Vec3 R) : R :=
  (pj.x - posi.x) * (pj.x - posi.x) + (pj.y - posi.y) * (pj.y - posi.y) +
    (pj.z - posi.z) * (pj.z - posi.z)

/-- `G = 3.8e-7` of the newer object worker (`public/physicsWorker.js`). -/
def gRK4 : R := 19 / 50000000

/-- `G = 1.5e-7` of the legacy object worker. -/
def gLegacy : R := 3 / 20000000

/-- `calculateAcceleration` of the newer object worker: no softening; a pair
only contributes when `distanceSq > 1e-6`; the magnitude is
`G * otherBody.mass / distanceSq` (independent of the body's own mass) and the
direction is `(dx, dy, dz) / distance`.  The current body is read only for its
`id` (the `i === j` skip). -/
def calculateAcceleration (g : R) (selfId : String) (currentPos : Vec3 R)
    (allBodies : List (Body R)) : Vec3 R :=
  allBodies.foldl
    (fun acc otherBody =>
      if selfId = otherBody.id then acc
      else
        let dx := otherBody.position.x - currentPos.x
        let dy := otherBody.position.y - currentPos.y
        let dz := otherBody.position.z - currentPos.z
        let distanceSq := dx * dx + dy * dy + dz * dz
        if distanceSq > 1 / 1000000 then
          let dist := sqrt distanceSq
          let accelerationMagnitude := g * otherBody.mass / distanceSq
          acc + ⟨dx / dist * accelerationMagnitude, dy / dist * accelerationMagnitude,
            dz / dist * accelerationMagnitude⟩
        else acc)
    0

/-- `calculateAcceleration` of the legacy object worker: the pair force
`G * m1 * m2 / r²` is computed first and then divided by the body's own mass
`m1` (`forcePerMass`).  For `m1 = 0` this is `0 / 0`: `NaN` in JavaScript,
`0` in this total-division model. -/
def legacyCalculateAcceleration (g : R) (selfId : String) (selfMass : R)
    (currentPos : Vec3 R) (allBodies : List (Body R)) : Vec3 R :=
  allBodies.foldl
    (fun acc otherBody =>
      if selfId = otherBody.id then acc
      else
        let dx := otherBody.position.x - currentPos.x
        let dy := otherBody.position.y - currentPos.y
        let dz := otherBody.position.z - currentPos.z
        let distanceSq := dx * dx + dy * dy + dz * dz
        if distanceSq > 1 / 1000000 then
          let dist := sqrt distanceSq
          let forceMagnitude := g * selfMass * otherBody.mass / distanceSq
          let forcePerMass := forceMagnitude / selfMass
          acc + ⟨dx / dist * forcePerMass, dy / dist * forcePerMass,
            dz / dist * forcePerMass⟩
        else acc)
    0

end Kernels

section LoopEmbedding

variable {α : Type}

/-- Embedding of an in-place `for` loop writing a JS array: the slots listed in
`order` are visited in order, and slot `i` is overwritten with `f i` applied to
the value currently stored there.  The source loops use `order = range n`, but
keeping the order explicit lets the order-independence claims be stated about
the actual loop. -/
def inPlaceMap (d : α) (f : ℕ → α → α) (l : List α) (order : List ℕ) : List α :=
  order.foldl (fun a i => a.set i (f i (a.getD i d))) l

/-- The per-slot value computed by a loop that reads a consistent snapshot:
slot `i` of the result is `f i` applied to slot `i` of the snapshot `l`. -/
def snapshotMap (d : α) (f : ℕ → α → α) (l : List α) : List α :=
  (List.range l.length).map (fun i => f i (l.getD i d))

end LoopEmbedding


section Integrators

variable {R : Type} [LinearOrderedField R] (sqrt : R → R)

/-- New position/velocity pair returned by `rk4Step` of the object worker. -/
structure PosVel (R : Type) where
  position : Vec3 R
  velocity : Vec3 R
deriving DecidableEq

/-- `rk4Step` of the newer object worker: four acceleration-kernel evaluations
for a single body, with every stage passing the unchanged `allBodies` list.
Per-coordinate source expressions like `body.position.x + k1p.x * dt / 2` are
bundled as `body.position + (dt / 2) • k1p`. -/
def rk4Step (g : R) (body : Body R) (allBodies : List (Body R)) (dt : R) : PosVel R :=
  let k1v := calculateAcceleration sqrt g body.id body.position allBodies
  let k1p := body.velocity
  let pos2 := body.position + (dt / 2) • k1p
  let vel2 := body.velocity + (dt / 2) • k1v
  let k2v := calculateAcceleration sqrt g body.id pos2 allBodies
  let k2p := vel2
  let pos3 := body.position + (dt / 2) • k2p
  let vel3 := body.velocity + (dt / 2) • k2v
  let k3v := calculateAcceleration sqrt g body.id pos3 allBodies
  let k3p := vel3
  let pos4 := body.position + dt • k3p
  let vel4 := body.velocity + dt • k3v
  let k4v := calculateAcceleration sqrt g body.id pos4 allBodies
  let k4p := vel4
  { velocity := body.velocity + (dt / 6) • (k1v + (2 : R) • k2v + (2 : R) • k3v + k4v),
    position := body.position + (dt / 6) • (k1p + (2 : R) • k2p + (2 : R) • k3p + k4p) }

/-- Following the spec's words (section 4.2): classical RK4 for the coupled
second-order system, stage derivatives `k1..k4` with the midpoint states built
from `k1` resp. `k2` and the endpoint state built from `k3`
(`k3p = v + (dt/2) * k2v`), combined as `(k1 + 2*k2 + 2*k3 + k4)/6 * dt`.
The acceleration at a trial position is taken with respect to the same
body list, matching the per-body kernel of the object worker. -/
def specRK4SingleStep (g : R) (body : Body R) (allBodies : List (Body R)) (dt : R) :
    PosVel R :=
  let k1v := calculateAcceleration sqrt g body.id body.position allBodies
  let k1p := body.velocity
  let k2v := calculateAcceleration sqrt g body.id (body.position + (dt / 2) • k1p) allBodies
  let k2p := body.velocity + (dt / 2) • k1v
  let k3v := calculateAcceleration sqrt g body.id (body.position + (dt / 2) • k2p) allBodies
  let k3p := body.velocity + (dt / 2) • k2v
  let k4v := calculateAcceleration sqrt g body.id (body.position + dt • k3p) allBodies
  let k4p := body.velocity + dt • k3v
  { velocity := body.velocity + (dt / 6) • (k1v + (2 : R) • k2v + (2 : R) • k3v + k4v),
    position := body.position + (dt / 6) • (k1p + (2 : R) • k2p + (2 : R) • k3p + k4p) }

/-- The update-application of the object worker's `simulate`:
`bodies[i].velocity = updates[i].velocity; bodies[i].position = updates[i].position`. -/
def applyUpdate (b : Body R) (u : PosVel R) : Body R :=
  { b with velocity := u.velocity, position := u.position }

/-- First loop of the object worker's `simulate`: `updates.push(rk4Step(...))`
for each index, reading only the untouched `bodies` array. -/
def buildUpdates (g : R) (bodies : List (Body R)) (dt : R) : List (PosVel R) :=
  (List.range bodies.length).foldl
    (fun upds i => upds ++ [rk4Step sqrt g (bodies.getD i (dummyBody R)) bodies dt]) []

/-- One integration pass of the object worker's `simulate` (`timeScale` already
folded into `dt`): build all updates from the current `bodies`, then apply them
in a second in-place loop. -/
def simulateStep (g : R) (bodies : List (Body R)) (dt : R) : List (Body R) :=
  let updates := buildUpdates sqrt g bodies dt
  inPlaceMap (dummyBody R)
    (fun i b => applyUpdate b (updates.getD i ⟨0, 0⟩)) bodies (List.range bodies.length)

/-- Half-step velocity update of `integrateLeapfrog`:
`vx[i] += k1ax[i] * dt2` (and `y`, `z`). -/
def kick (h : R) (a : Vec3 R) (b : Body R) : Body R :=
  { b with velocity := b.velocity + h • a }

/-- Full-step position update of `integrateLeapfrog`: `px[i] += vx[i] * dt`. -/
def drift (dt : R) (b : Body R) : Body R :=
  { b with position := b.position + dt • b.velocity }

/-- `integrateLeapfrog` of the typed-array worker: half kick from the
acceleration at the current positions, full drift with the half-updated
velocities, then a second half kick from the acceleration at the new
positions.  Each loop is the in-place ascending-index loop of the source. -/
def integrateLeapfrog (g dt : R) (bodies : List (Body R)) : List (Body R) :=
  let dt2 := dt * (1 / 2)
  let a1 := computeAccelerations sqrt g (bodies.map (·.position)) (bodies.map (·.mass))
  let b1 := inPlaceMap (dummyBody R) (fun i b => kick dt2 (a1.getD i 0) b) bodies
    (List.range bodies.length)
  let b2 := inPlaceMap (dummyBody R) (fun _ b => drift dt b) b1 (List.range b1.length)
  let a2 := computeAccelerations sqrt g (b2.map (·.position)) (b2.map (·.mass))
  inPlaceMap (dummyBody R) (fun i b => kick dt2 (a2.getD i 0) b) b2 (List.range b2.length)

/-- The state after the drift phase of one leapfrog step, written as a
per-body pure function of the step-start snapshot: body `i` is half-kicked by
the acceleration at the start positions, then drifted for a full `dt`.  Used
to state the simultaneity property of `integrateLeapfrog`. -/
def leapfrogHalf (g dt : R) (bodies : List (Body R)) : List (Body R) :=
  (List.range bodies.length).map
    (fun i =>
      drift dt
        (kick (dt * (1 / 2))
          ((computeAccelerations sqrt g (bodies.map (·.position))
              (bodies.map (·.mass))).getD i 0)
          (bodies.getD i (dummyBody R))))

/-- The `k2` trial position array of the typed-array `integrateRK4`:
`tmpPx[i] = px0[i] + vx0[i] * dt2`. -/
def rk4TrialMid1 (dt : R) (p0 v0 : List (Vec3 R)) : List (Vec3 R) :=
  (List.range p0.length).map (fun i => p0.getD i 0 + (dt * (1 / 2)) • v0.getD i 0)

/-- The `k3` trial position array of the typed-array `integrateRK4`:
`vxMid = vx0[i] + k1ax[i] * dt2; tmpPx[i] = px0[i] + vxMid * dt2`. -/
def rk4TrialMid2 (dt : R) (p0 v0 k1 : List (Vec3 R)) : List (Vec3 R) :=
  (List.range p0.length).map
    (fun i => p0.getD i 0 + (dt * (1 / 2)) • (v0.getD i 0 + (dt * (1 / 2)) • k1.getD i 0))

/-- The `k4` trial position array of the typed-array `integrateRK4`, exactly as
in the source: `vxEnd = vx0[i] + k2ax[i] * dt; tmpPx[i] = px0[i] + vxEnd * dt`
(the trial velocity adds a full `dt` of the `k2` acceleration). -/
def rk4TrialEnd (dt : R) (p0 v0 k2 : List (Vec3 R)) : List (Vec3 R) :=
  (List.range p0.length).map
    (fun i => p0.getD i 0 + dt • (v0.getD i 0 + dt • k2.getD i 0))

/-- Following the spec's words: the endpoint trial state built from `k3`, i.e.
position `p0 + dt * k3p` with the stage `k3p = v0 + (dt/2) * k2v`. -/
def specRK4EndpointTrial (dt : R) (p0 v0 k2 : List (Vec3 R)) : List (Vec3 R) :=
  (List.range p0.length).map
    (fun i => p0.getD i 0 + dt • (v0.getD i 0 + (dt * (1 / 2)) • k2.getD i 0))

/-- `integrateRK4` of the typed-array worker: the initial state is saved into
`px0/vx0`, the four stage accelerations `k1..k4` are computed at the current
positions and the three trial arrays, and the final loop writes the weighted
averages back into the state arrays. -/
def integrateRK4 (g dt : R) (bodies : List (Body R)) : List (Body R) :=
  let dt2 := dt * (1 / 2)
  let dt6 := dt / 6
  let p0 := bodies.map (·.position)
  let v0 := bodies.map (·.velocity)
  let ms := bodies.map (·.mass)
  let k1 := computeAccelerations sqrt g p0 ms
  let k2 := computeAccelerations sqrt g (rk4TrialMid1 dt p0 v0) ms
  let k3 := computeAccelerations sqrt g (rk4TrialMid2 dt p0 v0 k1) ms
  let k4 := computeAccelerations sqrt g (rk4TrialEnd dt p0 v0 k2) ms
  inPlaceMap (dummyBody R)
    (fun i b =>
      { b with
        velocity := v0.getD i 0 +
          dt6 • (k1.getD i 0 + (2 : R) • k2.getD i 0 + (2 : R) • k3.getD i 0 + k4.getD i 0),
        position := p0.getD i 0 +
          dt6 • (v0.getD i 0 + (2 : R) • (v0.getD i 0 + dt2 • k1.getD i 0) +
            (2 : R) • (v0.getD i 0 + dt2 • k2.getD i 0) + (v0.getD i 0 + dt • k3.getD i 0)) })
    bodies (List.range bodies.length)

end Integrators

section Workers

variable {R : Type} [LinearOrderedField R] (sqrt : R → R)

/-- One entry of the posted `update` message: `{id, position, velocity}`. -/
structure SnapBody (R : Type) where
  id : String
  position : Vec3 R
  velocity : Vec3 R
deriving DecidableEq

/-- A blank pre-allocated `outputBodies` slot of the typed-array worker. -/
def blankSnap : SnapBody R :=
  ⟨"", 0, 0⟩

/-- The initial `outputBodies` pool: 64 blank slots. -/
def initialOutput : List (SnapBody R) :=
  List.replicate 64 (blankSnap (R := R))

/-- Projection of a body to its snapshot entry. -/
def Body.toSnap (b : Body R) : SnapBody R :=
  ⟨b.id, b.position, b.velocity⟩

/-- `MAX_BODIES = 64` of the typed-array worker. -/
def MAX_BODIES : ℕ := 64

/-- The message posted by the typed-array worker:
`{type: 'update', bodies: outputBodies, bodyCount: n}`.  Note that `bodies`
is the whole pre-allocated pool, not a slice of length `bodyCount`. -/
structure Snapshot (R : Type) where
  bodies : List (SnapBody R)
  bodyCount : ℕ
deriving DecidableEq

/-- The output-building loop of the typed-array `simulate`: for `i < n` the
pooled entry `outputBodies[i]` is overwritten with body `i`'s id, position and
velocity; entries at indices `≥ n` are left as they were. -/
def writeOutput (out : List (SnapBody R)) (bodies : List (Body R)) : List (SnapBody R) :=
  inPlaceMap (blankSnap (R := R))
    (fun i _ => (bodies.getD i (dummyBody R)).toSnap) out (List.range bodies.length)

/-- The adaptive substep count of the typed-array `simulate`:
`n > 20 ? 4 : (n > 10 ? 6 : 8)`. -/
def substepsFor (n : ℕ) : ℕ :=
  if n > 20 then 4 else if n > 10 then 6 else 8

/-- Mutable module state of the typed-array worker: `G`, `timeScale`,
`isPaused`, the active bodies (the first `n` slots of the parallel arrays,
bundled), and the persistent `outputBodies` pool. -/
structure OptWorker (R : Type) where
  g : R
  timeScale : R
  isPaused : Bool
  bodies : List (Body R)
  output : List (SnapBody R)
deriving DecidableEq

/-- One scheduler tick of the typed-array worker (`simulate` without the
re-arming `setTimeout`): if not paused and `n > 0`, run
`substeps` leapfrog steps of `dt = timeScale * 0.016 / substeps` and post the
snapshot; otherwise do nothing and post nothing. -/
def OptWorker.tick (s : OptWorker R) : OptWorker R × Option (Snapshot R) :=
  if ¬s.isPaused ∧ s.bodies.length ≠ 0 then
    let substeps := substepsFor s.bodies.length
    let dt := s.timeScale * (2 / 125) / (substeps : R)
    let bodies := (fun b => integrateLeapfrog sqrt s.g dt b)^[substeps] s.bodies
    let out := writeOutput s.output bodies
    ({ s with bodies := bodies, output := out }, some ⟨out, bodies.length⟩)
  else (s, none)

/-- The commands of the typed-array worker's `onmessage`.  Optional payload
fields (`gConstant`, `timeScale`, `isPaused`) model `undefined` checks; the
`timeScale` falsy-default (`data.timeScale || 1`) is modelled explicitly. -/
inductive OptCmd (R : Type) where
  | init (bodies : List (Body R)) (gConstant : Option R) (timeScale : Option R)
      (isPaused : Option Bool)
  | updateBodies (bodies : List (Body R))
  | setTimeScale (t : R)
  | setPaused (p : Bool)
  | addBody (b : Body R)
  | removeBody (bodyId : String)

/-- `data.timeScale || 1`-style falsy defaulting: `undefined` or `0` fall back
to the default. -/
def jsOrDefault (v : Option R) (dflt : R) : R :=
  match v with
  | none => dflt
  | some t => if t = 0 then dflt else t

/-- The `removeBody` handler of the typed-array worker on the active slots:
`idx = bodyIds.indexOf(id)`; if found among the active slots, the count is
decremented and (unless the body was last) the last active slot is copied into
`idx`.  On the bundled list this is: replace slot `idx` by the last element,
then drop the last element. -/
def removeBodySwap (bodies : List (Body R)) (bodyId : String) : List (Body R) :=
  match bodies.findIdx? (fun b => b.id = bodyId) with
  | none => bodies
  | some idx =>
    match bodies.getLast? with
    | none => bodies
    | some last => (bodies.set idx last).dropLast

/-- The `onmessage` handler of the typed-array worker. `init`/`updateBodies`
keep only the first `MAX_BODIES` entries (`n = Math.min(len, MAX_BODIES)`);
`addBody` appends when `n < MAX_BODIES` and the body has a truthy id. -/
def OptWorker.applyCmd (s : OptWorker R) : OptCmd R → OptWorker R
  | .init bodies gConstant timeScale isPaused =>
    { s with
      g := match gConstant with | none => s.g | some gc => gc
      bodies := bodies.take MAX_BODIES
      timeScale := jsOrDefault timeScale 1
      isPaused := isPaused.getD false }
  | .updateBodies bodies => { s with bodies := bodies.take MAX_BODIES }
  | .setTimeScale t => { s with timeScale := t }
  | .setPaused p => { s with isPaused := p }
  | .addBody b =>
    if s.bodies.length < MAX_BODIES ∧ b.id ≠ "" then { s with bodies := s.bodies ++ [b] }
    else s
  | .removeBody bodyId => { s with bodies := removeBodySwap s.bodies bodyId }

/-- Mutable module state of the newer object worker in
`public/physicsWorker.js` (its `G` is the module constant `gRK4`). -/
structure ObjWorker (R : Type) where
  timeScale : R
  isPaused : Bool
  bodies : List (Body R)
deriving DecidableEq

/-- One scheduler tick of the object worker's `simulate`: paused or empty
ticks do nothing and post nothing; otherwise one `rk4Step` pass over all
bodies with `dt = timeScale * 0.016`, posting exactly the active bodies
(`bodies.map(...)`, without a `bodyCount` field). -/
def ObjWorker.tick (s : ObjWorker R) : ObjWorker R × Option (List (SnapBody R)) :=
  if s.isPaused then (s, none)
  else if s.bodies.length = 0 then (s, none)
  else
    let dt := s.timeScale * (2 / 125)
    let bodies := simulateStep sqrt (gRK4 (R := R)) s.bodies dt
    ({ s with bodies := bodies }, some (bodies.map Body.toSnap))

/-- The commands of the object worker's `onmessage`. -/
inductive ObjCmd (R : Type) where
  | init (bodies : List (Body R)) (timeScale : Option R) (isPaused : Option Bool)
  | updateBodies (bodies : List (Body R))
  | setTimeScale (t : R)
  | setPaused (p : Bool)
  | addBody (b : Body R)
  | removeBody (bodyId : String)

/-- The `onmessage` handler of the newer object worker: no capacity bound
anywhere; `addBody` pushes unconditionally (only the legacy worker's handler
additionally checks a truthy id); `removeBody` filters by id. -/
def ObjWorker.applyCmd (s : ObjWorker R) : ObjCmd R → ObjWorker R
  | .init bodies timeScale isPaused =>
    { s with
      bodies := bodies
      timeScale := jsOrDefault timeScale 10000
      isPaused := isPaused.getD false }
  | .updateBodies bodies => { s with bodies := bodies }
  | .setTimeScale t => { s with timeScale := t }
  | .setPaused p => { s with isPaused := p }
  | .addBody b => { s with bodies := s.bodies ++ [b] }
  | .removeBody bodyId => { s with bodies := s.bodies.filter (fun b => b.id ≠ bodyId) }

end Workers

section SampleData

/-- Two concrete unit-mass bodies at distance 1 (rational coordinates). -/
def sampleBodyA : Body ℚ :=
  ⟨"A", 1, ⟨0, 0, 0⟩, ⟨0, 0, 0⟩⟩

/-- Second sample body. -/
def sampleBodyB : Body ℚ :=
  ⟨"B", 1, ⟨1, 0, 0⟩, ⟨0, 0, 0⟩⟩

/-- Two-body sample configuration. -/
def sampleBodies : List (Body ℚ) :=
  [sampleBodyA, sampleBodyB]

/-- A running two-body typed-array worker state. -/
def sampleOptWorker : OptWorker ℚ :=
  ⟨1, 1, false, sampleBodies, initialOutput⟩

/-- A running one-body typed-array worker state. -/
def oneBodyOptWorker : OptWorker ℚ :=
  ⟨1, 1, false, [sampleBodyA], initialOutput⟩

/-- A paused two-body typed-array worker state. -/
def pausedOptWorker : OptWorker ℚ :=
  ⟨1, 1, true, sampleBodies, initialOutput⟩

/-- 64 distinct bodies: the typed-array worker's exact capacity. -/
def bodies64 : List (Body ℚ) :=
  (List.range 64).map (fun i => ⟨toString i, 1, 0, 0⟩)

/-- A typed-array worker state at capacity. -/
def fullOptWorker : OptWorker ℚ :=
  ⟨1, 1, false, bodies64, initialOutput⟩

/-- An object worker state holding 64 bodies. -/
def fullObjWorker : ObjWorker ℚ :=
  ⟨1000, false, bodies64⟩

end SampleData

section Vec3Lemmas

variable {R : Type}

@[simp]
theorem Vec3.zero_x [Zero R] : (0 : Vec3 R).x = 0 := rfl

@[simp]
theorem Vec3.zero_y [Zero R] : (0 : Vec3 R).y = 0 := rfl

@[simp]
theorem Vec3.zero_z [Zero R] : (0 : Vec3 R).z = 0 := rfl

@[simp]
theorem Vec3.add_x [Add R] (a b : Vec3 R) : (a + b).x = a.x + b.x := rfl

@[simp]
theorem Vec3.add_y [Add R] (a b : Vec3 R) : (a + b).y = a.y + b.y := rfl

@[simp]
theorem Vec3.add_z [Add R] (a b : Vec3 R) : (a + b).z = a.z + b.z := rfl

@[simp]
theorem Vec3.sub_x [Sub R] (a b : Vec3 R) : (a - b).x = a.x - b.x := rfl

@[simp]
theorem Vec3.sub_y [Sub R] (a b : Vec3 R) : (a - b).y = a.y - b.y := rfl

@[simp]
theorem Vec3.sub_z [Sub R] (a b : Vec3 R) : (a - b).z = a.z - b.z := rfl

@[simp]
theorem Vec3.smul_x [Mul R] (c : R) (v : Vec3 R) : (c • v).x = c * v.x := rfl

@[simp]
theorem Vec3.smul_y [Mul R] (c : R) (v : Vec3 R) : (c • v).y = c * v.y := rfl

@[simp]
theorem Vec3.smul_z [Mul R] (c : R) (v : Vec3 R) : (c • v).z = c * v.z := rfl

@[simp]
theorem Vec3.mk_x (a b c : R) : (Vec3.mk a b c).x = a := rfl

@[simp]
theorem Vec3.mk_y (a b c : R) : (Vec3.mk a b c).y = b := rfl

@[simp]
theorem Vec3.mk_z (a b c : R) : (Vec3.mk a b c).z = c := rfl

theorem Vec3.smul_zero' [MulZeroClass R] (c : R) : c • (0 : Vec3 R) = 0 := by
  ext <;> simp

end Vec3Lemmas

section LoopLemmas

variable {α : Type}

@[simp]
theorem inPlaceMap_nil (d : α) (f : ℕ → α → α) (l : List α) :
    inPlaceMap d f l [] = l := rfl

theorem inPlaceMap_cons (d : α) (f : ℕ → α → α) (l : List α) (i : ℕ) (t : List ℕ) :
    inPlaceMap d f l (i :: t) = inPlaceMap d f (l.set i (f i (l.getD i d))) t := rfl

@[simp]
theorem inPlaceMap_length (d : α) (f : ℕ → α → α) (l : List α) (order : List ℕ) :
    (inPlaceMap d f l order).length = l.length := by
  induction order generalizing l with
  | nil => rfl
  | cons i t ih => rw [inPlaceMap_cons]; rw [ih]; exact List.length_set ..

theorem getD_set_self (l : List α) (i : ℕ) (v d : α) :
    (l.set i v).getD i d = if i < l.length then v else l.getD i d := by
  by_cases h : i < l.length
  · simp [List.getD_eq_getElem?_getD, List.getElem?_set_self', h,
      List.getElem?_eq_getElem, h]
  · simp [List.set_eq_of_length_le (Nat.le_of_not_lt h), h]

theorem getD_set_ne (l : List α) {i j : ℕ} (h : i ≠ j) (v d : α) :
    (l.set i v).getD j d = l.getD j d := by
  simp [List.getD_eq_getElem?_getD, List.getElem?_set_ne h]

/-- Main loop characterization: running an in-place loop over a duplicate-free
slot order is observationally a per-slot function of the initial array. -/
theorem inPlaceMap_getD (d : α) (f : ℕ → α → α) (l : List α) (order : List ℕ)
    (hnd : order.Nodup) (j : ℕ) :
    (inPlaceMap d f l order).getD j d =
      if j ∈ order ∧ j < l.length then f j (l.getD j d) else l.getD j d := by
  induction order generalizing l with
  | nil => simp
  | cons i t ih =>
    rw [inPlaceMap_cons]
    have hit : i ∉ t := (List.nodup_cons.mp hnd).1
    have hndt : t.Nodup := (List.nodup_cons.mp hnd).2
    rw [ih _ hndt]
    by_cases hjt : j ∈ t
    · have hji : j ≠ i := fun h => hit (h ▸ hjt)
      rw [getD_set_ne l (Ne.symm hji)]
      simp [hjt, List.length_set]
    · by_cases hji : j = i
      · subst hji
        rw [getD_set_self]
        by_cases hlen : j < l.length <;> simp [hjt, hlen, List.length_set]
      · rw [getD_set_ne l (Ne.symm hji)]
        simp [hjt, hji, List.length_set]

theorem snapshotMap_length (d : α) (f : ℕ → α → α) (l : List α) :
    (snapshotMap d f l).length = l.length := by
  simp [snapshotMap]

theorem snapshotMap_getD (d : α) (f : ℕ → α → α) (l : List α) (j : ℕ) :
    (snapshotMap d f l).getD j d =
      if j < l.length then f j (l.getD j d) else d := by
  by_cases h : j < l.length
  · rw [List.getD_eq_getElem?_getD]
    have hj : j < (snapshotMap d f l).length := by rw [snapshotMap_length]; exact h
    rw [List.getElem?_eq_getElem hj]
    simp [snapshotMap, h]
  · rw [List.getD_eq_getElem?_getD, List.getElem?_eq_none, if_neg h]
    · rfl
    · rw [snapshotMap_length]; exact Nat.le_of_not_lt h

/-- Two lists of equal length with equal `getD` views are equal. -/
theorem list_ext_getD (d : α) {l₁ l₂ : List α} (hlen : l₁.length = l₂.length)
    (h : ∀ j, l₁.getD j d = l₂.getD j d) : l₁ = l₂ := by
  apply List.ext_getElem hlen
  intro j h₁ h₂
  have := h j
  rwa [List.getD_eq_getElem?_getD, List.getD_eq_getElem?_getD,
    List.getElem?_eq_getElem h₁, List.getElem?_eq_getElem h₂] at this

/-- An in-place loop whose slot order is any permutation of `range n` computes
the consistent-snapshot result: every slot is written exactly once from the
initial array, so the outcome does not depend on the processing order. -/
theorem inPlaceMap_perm_range (d : α) (f : ℕ → α → α) (l : List α)
    (order : List ℕ) (hp : order.Perm (List.range l.length)) :
    inPlaceMap d f l order = snapshotMap d f l := by
  have hnd : order.Nodup := hp.nodup_iff.mpr (List.nodup_range _)
  have hmem : ∀ j, j ∈ order ↔ j < l.length := by
    intro j
    rw [hp.mem_iff, List.mem_range]
  apply list_ext_getD d
  · rw [inPlaceMap_length, snapshotMap_length]
  · intro j
    rw [inPlaceMap_getD d f l order hnd j, snapshotMap_getD]
    by_cases h : j < l.length
    · simp [hmem, h]
    · simp [hmem, h, List.getD_eq_getElem?_getD, List.getElem?_eq_none (Nat.le_of_not_lt h)]

/-- The source loops themselves (ascending index order). -/
theorem inPlaceMap_range (d : α) (f : ℕ → α → α) (l : List α) :
    inPlaceMap d f l (List.range l.length) = snapshotMap d f l :=
  inPlaceMap_perm_range d f l _ (List.Perm.refl _)

end LoopLemmas

section SchedulerLemmas

theorem substepsFor_pos (n : ℕ) : 0 < substepsFor n := by
  unfold substepsFor
  split_ifs <;> norm_num

theorem removeBodySwap_length_le {R : Type} [LinearOrderedField R]
    (l : List (Body R)) (bodyId : String) :
    (removeBodySwap l bodyId).length ≤ l.length := by
  unfold removeBodySwap
  cases hf : l.findIdx? (fun b => b.id = bodyId) with
  | none => exact le_refl _
  | some idx =>
    cases hl : l.getLast? with
    | none => exact le_refl _
    | some last =>
      simp only [List.length_dropLast, List.length_set]
      omega

end SchedulerLemmas

section ClaimC5

/-- C5 (corrected, amended part): on every non-paused tick with at least one
body, the typed-array scheduler advances total simulated time
`timeScale * 0.016` (the substep count times the per-substep `dt`), divided
into `substepsFor n` equal leapfrog substeps integrated independently; however
the substep count is *antitone* in the body count (`n > 20 ? 4 : n > 10 ? 6 : 8`):
a state with more bodies runs at most — not at least — as many substeps. -/
theorem C5_substep_scheduler {R : Type} [LinearOrderedField R] (sqrt : R → R)
    (s : OptWorker R) (h : ¬s.isPaused ∧ s.bodies.length ≠ 0) :
    ((substepsFor s.bodies.length : R) *
        (s.timeScale * (2 / 125) / (substepsFor s.bodies.length : R)) =
      s.timeScale * (2 / 125)) ∧
    (OptWorker.tick sqrt s).1.bodies =
      (fun b => integrateLeapfrog sqrt s.g
          (s.timeScale * (2 / 125) / (substepsFor s.bodies.length : R))
          b)^[substepsFor s.bodies.length] s.bodies ∧
    (∀ n m : ℕ, n ≤ m → substepsFor m ≤ substepsFor n) := by
  refine ⟨?_, ?_, ?_⟩
  · have hpos : (0 : R) < (substepsFor s.bodies.length : R) := by
      exact_mod_cast substepsFor_pos s.bodies.length
    field_simp
    ring
  · unfold OptWorker.tick
    rw [if_pos h]
  · intro n m hnm
    unfold substepsFor
    split_ifs <;> omega

/-- Witness for `C5_substep_scheduler` at a concrete running two-body state. -/
theorem C5_substep_scheduler_witness :
    (¬sampleOptWorker.isPaused ∧ sampleOptWorker.bodies.length ≠ 0) ∧
    (∀ n m : ℕ, n ≤ m → substepsFor m ≤ substepsFor n) :=
  ⟨by decide, (C5_substep_scheduler id sampleOptWorker (by decide)).2.2⟩

/-- C5 counterexample: the claim asserts the substep count never decreases as
the body count increases, but `substepsFor` computes `n > 20 ? 4 : (n > 10 ? 6 : 8)`:
a 5-body state runs 8 substeps per tick while a 25-body state runs only 4. -/
theorem C5_counterexample :
    5 < 25 ∧ substepsFor 25 < substepsFor 5 := by decide

end ClaimC5

section ClaimC10

/-- C10 (confirmed): in the typed-array worker, `init` and `updateBodies`
silently keep only the first `MAX_BODIES = 64` entries of the supplied list
(`n = Math.min(data.bodies.length, MAX_BODIES)`), and every command handler
preserves the invariant `bodyCount ≤ 64`. -/
theorem C10_capacity_invariant {R : Type} [LinearOrderedField R] (s : OptWorker R) :
    (∀ (bodies : List (Body R)) gc ts ip,
      (s.applyCmd (OptCmd.init bodies gc ts ip)).bodies = bodies.take 64 ∧
      (s.applyCmd (OptCmd.init bodies gc ts ip)).bodies.length = min bodies.length 64) ∧
    (∀ bodies : List (Body R),
      (s.applyCmd (OptCmd.updateBodies bodies)).bodies = bodies.take 64 ∧
      (s.applyCmd (OptCmd.updateBodies bodies)).bodies.length = min bodies.length 64) ∧
    (∀ c : OptCmd R, s.bodies.length ≤ 64 → (s.applyCmd c).bodies.length ≤ 64) := by
  refine ⟨?_, ?_, ?_⟩
  · intro bodies gc ts ip
    constructor
    · rfl
    · simp [OptWorker.applyCmd, MAX_BODIES, List.length_take, Nat.min_comm]
  · intro bodies
    constructor
    · rfl
    · simp [OptWorker.applyCmd, MAX_BODIES, List.length_take, Nat.min_comm]
  · intro c h
    cases c with
    | init bodies gc ts ip =>
      simp [OptWorker.applyCmd, MAX_BODIES, List.length_take]
    | updateBodies bodies =>
      simp [OptWorker.applyCmd, MAX_BODIES, List.length_take]
    | setTimeScale t => exact h
    | setPaused p => exact h
    | addBody b =>
      show (if s.bodies.length < MAX_BODIES ∧ b.id ≠ "" then
        { s with bodies := s.bodies ++ [b] } else s).bodies.length ≤ 64
      split_ifs with hg
      · simp only [List.length_append, List.length_singleton]
        have : s.bodies.length < MAX_BODIES := hg.1
        unfold MAX_BODIES at this
        omega
      · exact h
    | removeBody bodyId =>
      exact le_trans (removeBodySwap_length_le s.bodies bodyId) h

/-- Witness for `C10_capacity_invariant`: the invariant conjunct applied at a
concrete two-body state and a concrete `addBody` command. -/
theorem C10_capacity_invariant_witness :
    (sampleOptWorker.bodies.length ≤ 64) ∧
    ((sampleOptWorker.applyCmd (OptCmd.addBody ⟨"C", 1, 0, 0⟩)).bodies.length ≤ 64) :=
  ⟨by decide, (C10_capacity_invariant sampleOptWorker).2.2 _ (by decide)⟩

end ClaimC10

section ClaimC6

/-- C6 (corrected, amended part): in the typed-array worker, an `addBody` at
capacity (`n = MAX_BODIES = 64`) is a complete no-op — the whole worker state,
including every body's id, mass, position and velocity, is unchanged — and no
error is raised.  The object worker in `public/physicsWorker.js`, by contrast,
has no capacity check at all: its `addBody` appends at any body count. -/
theorem C6_addBody_at_capacity {R : Type} [LinearOrderedField R]
    (s : OptWorker R) (b : Body R) (h : s.bodies.length = MAX_BODIES) :
    s.applyCmd (OptCmd.addBody b) = s ∧
    (∀ t : ObjWorker R, b.id ≠ "" →
      (t.applyCmd (ObjCmd.addBody b)).bodies = t.bodies ++ [b]) := by
  constructor
  · show (if s.bodies.length < MAX_BODIES ∧ b.id ≠ "" then
      { s with bodies := s.bodies ++ [b] } else s) = s
    rw [if_neg]
    rintro ⟨hlt, -⟩
    rw [h] at hlt
    exact lt_irrefl _ hlt
  · intro t _
    rfl

/-- Witness for `C6_addBody_at_capacity` at the concrete 64-body state. -/
theorem C6_addBody_at_capacity_witness :
    (fullOptWorker.bodies.length = MAX_BODIES) ∧
    fullOptWorker.applyCmd (OptCmd.addBody ⟨"C", 1, 0, 0⟩) = fullOptWorker :=
  ⟨by decide, (C6_addBody_at_capacity fullOptWorker ⟨"C", 1, 0, 0⟩ (by decide)).1⟩

/-- C6 counterexample: the claim asserts that at the maximum capacity of 64
bodies `addBody` is a no-op, but the object worker just pushes: from a 64-body
state its body count becomes 65. -/
theorem C6_counterexample :
    fullObjWorker.bodies.length = 64 ∧
    (fullObjWorker.applyCmd (ObjCmd.addBody ⟨"C", 1, 0, 0⟩)).bodies.length = 65 := by
  decide

end ClaimC6

section RemoveBodyLemmas

variable {α : Type}

theorem dropLast_cons_of_ne_nil' (a : α) {t : List α} (h : t ≠ []) :
    (a :: t).dropLast = a :: t.dropLast := by
  cases t with
  | nil => exact absurd rfl h
  | cons b t' => exact List.dropLast_cons₂

/-- Swap-with-last removal is a permutation of plain index removal: replacing
slot `idx` with the last element and then dropping the last slot has the same
multiset of elements as erasing slot `idx`. -/
theorem set_getLast_dropLast_perm :
    ∀ (l : List α) (idx : ℕ), idx < l.length → ∀ (hne : l ≠ []),
      ((l.set idx (l.getLast hne)).dropLast).Perm (l.eraseIdx idx) := by
  intro l
  induction l with
  | nil => intro idx h hne; exact absurd rfl hne
  | cons a t ih =>
    intro idx h hne
    cases idx with
    | zero =>
      cases t with
      | nil => simp
      | cons b t' =>
        have htne : (b :: t') ≠ [] := List.cons_ne_nil b t'
        rw [List.getLast_cons htne, List.set_cons_zero, List.eraseIdx_cons_zero,
          List.dropLast_cons₂]
        conv_rhs => rw [← List.dropLast_append_getLast htne]
        exact (List.perm_append_singleton _ _).symm
    | succ idx' =>
      cases t with
      | nil => simp at h
      | cons b t' =>
        have htne : (b :: t') ≠ [] := List.cons_ne_nil b t'
        have hlen : idx' < (b :: t').length := by simpa using h
        rw [List.getLast_cons htne, List.set_cons_succ, List.eraseIdx_cons_succ]
        have hset_ne : ((b :: t').set idx' ((b :: t').getLast htne)) ≠ [] := by
          intro hc
          have := congrArg List.length hc
          simp at this
        rw [dropLast_cons_of_ne_nil' a hset_ne]
        exact (ih idx' hlen htne).cons a

/-- If the predicate fails exactly at slot `idx` and holds everywhere else,
filtering equals erasing that slot. -/
theorem filter_eq_eraseIdx_of_unique (p : α → Bool) :
    ∀ (l : List α) (idx : ℕ) (h : idx < l.length),
      p (l.get ⟨idx, h⟩) = false →
      (∀ k (hk : k < l.length), k ≠ idx → p (l.get ⟨k, hk⟩) = true) →
      l.filter p = l.eraseIdx idx := by
  intro l
  induction l with
  | nil => intro idx h; simp at h
  | cons a t ih =>
    intro idx h hpidx hother
    cases idx with
    | zero =>
      have hpa : p a = false := hpidx
      rw [List.filter_cons_of_neg (by simp [hpa]), List.eraseIdx_cons_zero]
      apply List.filter_eq_self.mpr
      intro b hb
      obtain ⟨k, hk, hbk⟩ := List.mem_iff_getElem.mp hb
      have := hother (k + 1) (Nat.succ_lt_succ hk) (Nat.succ_ne_zero k)
      rw [List.get_eq_getElem] at this
      simpa [hbk] using this
    | succ idx' =>
      have hpa : p a = true := hother 0 (Nat.succ_pos _) (fun hc => Nat.noConfusion hc)
      rw [List.filter_cons_of_pos hpa, List.eraseIdx_cons_succ]
      have hlen : idx' < t.length := by simpa using h
      rw [ih idx' hlen hpidx (fun k hk hkne =>
        hother (k + 1) (Nat.succ_lt_succ hk) (fun hc => hkne (Nat.succ_injective hc)))]

/-- The slot found by `findIdx?` is in range and satisfies the predicate. -/
theorem findIdx?_some_spec (p : α → Bool) (l : List α) (i : ℕ)
    (h : l.findIdx? p = some i) :
    ∃ hi : i < l.length, p (l.get ⟨i, hi⟩) = true := by
  obtain ⟨hlt, hfi⟩ := List.findIdx?_eq_some_iff_findIdx_eq.mp h
  subst hfi
  exact ⟨hlt, by simpa using List.findIdx_getElem (w := hlt)⟩

variable {R : Type}

theorem removeBodySwap_of_absent (l : List (Body R)) (bodyId : String)
    (h : ∀ b ∈ l, b.id ≠ bodyId) : removeBodySwap l bodyId = l := by
  unfold removeBodySwap
  have hf : l.findIdx? (fun b => b.id = bodyId) = none := by
    rw [List.findIdx?_eq_none_iff]
    intro x hx
    simp [h x hx]
  rw [hf]

theorem removeBodySwap_perm_eraseIdx (l : List (Body R)) (bodyId : String)
    (idx : ℕ) (hf : l.findIdx? (fun b => b.id = bodyId) = some idx) :
    (removeBodySwap l bodyId).Perm (l.eraseIdx idx) := by
  obtain ⟨hlt, -⟩ := List.findIdx?_eq_some_iff_findIdx_eq.mp hf
  have hne : l ≠ [] := by
    intro hc
    subst hc
    simp at hlt
  unfold removeBodySwap
  rw [hf, List.getLast?_eq_getLast l hne]
  exact set_getLast_dropLast_perm l idx hlt hne

end RemoveBodyLemmas

section ClaimC8

/-- C8 (confirmed): `removeBody` with an id not present leaves the body list
unchanged in both workers (no error); a removal never changes the id, mass,
position or velocity of any other body (every body with a different id is
still present, and under unique ids the swap-with-last removal is a
permutation of the filter-by-id removal, i.e. exactly the entries with the
removed id are gone); and under unique ids removal is idempotent — issuing
`removeBody` twice with the same id equals issuing it once. -/
theorem C8_removeBody_idempotent {R : Type} [LinearOrderedField R]
    (l : List (Body R)) (bodyId : String) :
    ((∀ b ∈ l, b.id ≠ bodyId) →
      removeBodySwap l bodyId = l ∧ l.filter (fun b => b.id ≠ bodyId) = l) ∧
    (∀ b ∈ l, b.id ≠ bodyId → b ∈ removeBodySwap l bodyId) ∧
    ((l.map Body.id).Nodup →
      (removeBodySwap l bodyId).Perm (l.filter (fun b => b.id ≠ bodyId)) ∧
      removeBodySwap (removeBodySwap l bodyId) bodyId = removeBodySwap l bodyId) := by
  refine ⟨?_, ?_, ?_⟩
  · intro h
    refine ⟨removeBodySwap_of_absent l bodyId h, ?_⟩
    apply List.filter_eq_self.mpr
    intro b hb
    simp [h b hb]
  · intro b hb hbid
    cases hf : l.findIdx? (fun b => b.id = bodyId) with
    | none =>
      unfold removeBodySwap
      rw [hf]
      exact hb
    | some idx =>
      obtain ⟨hlt, hpidx⟩ := findIdx?_some_spec _ l idx hf
      have hidx_id : (l.get ⟨idx, hlt⟩).id = bodyId := by simpa using hpidx
      obtain ⟨k, hk, hbk⟩ := List.mem_iff_getElem.mp hb
      have hkne : k ≠ idx := by
        intro hc
        apply hbid
        subst hc
        rw [List.get_eq_getElem] at hidx_id
        rw [← hbk]
        exact hidx_id
      have hperm := removeBodySwap_perm_eraseIdx l bodyId idx hf
      apply hperm.mem_iff.mpr
      rw [List.mem_eraseIdx_iff_getElem]
      exact ⟨k, hk, hkne, hbk⟩
  · intro hnd
    have key : (removeBodySwap l bodyId).Perm (l.filter (fun b => b.id ≠ bodyId)) := by
      cases hf : l.findIdx? (fun b => b.id = bodyId) with
      | none =>
        have habs : ∀ b ∈ l, b.id ≠ bodyId := by
          have := List.findIdx?_eq_none_iff.mp hf
          intro b hb
          simpa using this b hb
        rw [removeBodySwap_of_absent l bodyId habs]
        rw [List.filter_eq_self.mpr (fun b hb => by simp [habs b hb])]
      | some idx =>
        obtain ⟨hlt, hpidx⟩ := findIdx?_some_spec _ l idx hf
        have hidx_id : (l.get ⟨idx, hlt⟩).id = bodyId := by simpa using hpidx
        rw [List.get_eq_getElem] at hidx_id
        have hfeq : l.filter (fun b => b.id ≠ bodyId) = l.eraseIdx idx := by
          apply filter_eq_eraseIdx_of_unique _ l idx hlt
          · simp [hidx_id]
          · intro k hk hkne
            have hgoal : (l.get ⟨k, hk⟩).id ≠ bodyId := by
              intro hc
              apply hkne
              rw [List.get_eq_getElem] at hc
              have hmapk : k < (l.map Body.id).length := by
                rw [List.length_map]; exact hk
              have hmapi : idx < (l.map Body.id).length := by
                rw [List.length_map]; exact hlt
              have heq : (l.map Body.id).get ⟨k, hmapk⟩ =
                  (l.map Body.id).get ⟨idx, hmapi⟩ := by
                rw [List.get_eq_getElem, List.get_eq_getElem, List.getElem_map,
                  List.getElem_map]
                rw [hc, hidx_id]
              rw [List.get_eq_getElem, List.get_eq_getElem] at heq
              exact hnd.getElem_inj_iff.mp heq
            simpa using hgoal
        rw [hfeq]
        exact removeBodySwap_perm_eraseIdx l bodyId idx hf
    refine ⟨key, ?_⟩
    have habs : ∀ b ∈ removeBodySwap l bodyId, b.id ≠ bodyId := by
      intro b hb
      have hbf : b ∈ l.filter (fun b => b.id ≠ bodyId) := key.mem_iff.mp hb
      have := (List.mem_filter.mp hbf).2
      simpa using this
    exact removeBodySwap_of_absent _ bodyId habs

/-- Witness for `C8_removeBody_idempotent`: idempotent removal of body "B"
from the concrete two-body list. -/
theorem C8_removeBody_idempotent_witness :
    ((sampleBodies.map Body.id).Nodup) ∧
    removeBodySwap (removeBodySwap sampleBodies "B") "B" =
      removeBodySwap sampleBodies "B" :=
  ⟨by decide, ((C8_removeBody_idempotent sampleBodies "B").2.2 (by decide)).2⟩

end ClaimC8

section ClaimC9

/-- C9 (confirmed): while paused, a tick of either worker leaves the state
untouched and posts nothing (the `setTimeout` re-arm keeps the scheduler
alive; the timer itself is outside this embedding); `addBody`, `removeBody`
and `setTimeScale` have exactly the same effect on the state whether or not
the worker is paused, and `setPaused` overwrites the flag regardless of its
previous value; consequently the first tick after `setPaused(false)` runs the
integration on the state as updated by the commands received while paused. -/
theorem C9_pause_commands {R : Type} [LinearOrderedField R] (sqrt : R → R)
    (s : OptWorker R) (t : ObjWorker R) :
    (s.isPaused = true → OptWorker.tick sqrt s = (s, none)) ∧
    (t.isPaused = true → ObjWorker.tick sqrt t = (t, none)) ∧
    (∀ (b : Body R) (p : Bool),
      OptWorker.applyCmd { s with isPaused := p } (OptCmd.addBody b) =
        { OptWorker.applyCmd s (OptCmd.addBody b) with isPaused := p }) ∧
    (∀ (bodyId : String) (p : Bool),
      OptWorker.applyCmd { s with isPaused := p } (OptCmd.removeBody bodyId) =
        { OptWorker.applyCmd s (OptCmd.removeBody bodyId) with isPaused := p }) ∧
    (∀ (ts : R) (p : Bool),
      OptWorker.applyCmd { s with isPaused := p } (OptCmd.setTimeScale ts) =
        { OptWorker.applyCmd s (OptCmd.setTimeScale ts) with isPaused := p }) ∧
    (∀ (q p : Bool),
      OptWorker.applyCmd { s with isPaused := p } (OptCmd.setPaused q) =
        OptWorker.applyCmd s (OptCmd.setPaused q)) ∧
    (s.bodies.length ≠ 0 →
      OptWorker.tick sqrt (s.applyCmd (OptCmd.setPaused false)) =
        OptWorker.tick sqrt { s with isPaused := false }) := by
  refine ⟨?_, ?_, ?_, ?_, ?_, ?_, ?_⟩
  · intro hp
    unfold OptWorker.tick
    rw [if_neg]
    rintro ⟨hc, -⟩
    exact hc hp
  · intro hp
    unfold ObjWorker.tick
    rw [if_pos hp]
  · intro b p
    show (if s.bodies.length < MAX_BODIES ∧ b.id ≠ "" then _ else _) = _
    show _ = { (if s.bodies.length < MAX_BODIES ∧ b.id ≠ "" then
      { s with bodies := s.bodies ++ [b] } else s) with isPaused := p }
    split_ifs <;> rfl
  · intro bodyId p
    rfl
  · intro ts p
    rfl
  · intro q p
    rfl
  · intro h
    rfl

/-- Witness for `C9_pause_commands`: a paused tick at the concrete paused
two-body state changes nothing and posts nothing. -/
theorem C9_pause_commands_witness :
    (pausedOptWorker.isPaused = true) ∧
    OptWorker.tick id pausedOptWorker = (pausedOptWorker, none) :=
  ⟨by decide,
    (C9_pause_commands id pausedOptWorker ⟨1000, true, []⟩).1 (by decide)⟩

end ClaimC9

section LengthLemmas

variable {R : Type} [LinearOrderedField R] (sqrt : R → R)

theorem integrateLeapfrog_length (g dt : R) (bodies : List (Body R)) :
    (integrateLeapfrog sqrt g dt bodies).length = bodies.length := by
  unfold integrateLeapfrog
  simp [inPlaceMap_length]

theorem integrateLeapfrog_iterate_length (g dt : R) (k : ℕ) (bodies : List (Body R)) :
    ((fun b => integrateLeapfrog sqrt g dt b)^[k] bodies).length = bodies.length := by
  induction k generalizing bodies with
  | zero => rfl
  | succ k ih =>
    rw [Function.iterate_succ_apply]
    rw [ih]
    exact integrateLeapfrog_length sqrt g dt bodies

theorem simulateStep_length (g dt : R) (bodies : List (Body R)) :
    (simulateStep sqrt g bodies dt).length = bodies.length := by
  unfold simulateStep
  simp [inPlaceMap_length]

theorem writeOutput_length (out : List (SnapBody R)) (bodies : List (Body R)) :
    (writeOutput out bodies).length = out.length := by
  unfold writeOutput
  exact inPlaceMap_length ..

theorem writeOutput_getD (out : List (SnapBody R)) (bodies : List (Body R))
    (i : ℕ) (hi : i < bodies.length) (hio : i < out.length) :
    (writeOutput out bodies).getD i (blankSnap (R := R)) =
      (bodies.getD i (dummyBody R)).toSnap := by
  unfold writeOutput
  rw [inPlaceMap_getD _ _ _ _ (List.nodup_range _) i]
  simp [List.mem_range, hi, hio]

end LengthLemmas

section ClaimC7

/-- C7 (corrected, amended part): after every non-paused tick with at least
one body, the typed-array worker posts a snapshot whose `bodyCount` equals the
number of active bodies and whose first `bodyCount` entries are exactly the
active bodies' current id, position and velocity; but the posted `bodies`
array is the entire pre-allocated 64-slot `outputBodies` pool — stale slots
beyond index `bodyCount - 1` included — not one entry per active body.  The
object worker posts exactly one entry per active body, but its message carries
no `bodyCount` field (it posts a bare body list). -/
theorem C7_snapshot_contents {R : Type} [LinearOrderedField R] (sqrt : R → R)
    (s : OptWorker R) (h : ¬s.isPaused ∧ s.bodies.length ≠ 0)
    (hout : s.output.length = 64) (hcap : s.bodies.length ≤ 64) :
    ((OptWorker.tick sqrt s).2.map Snapshot.bodyCount = some s.bodies.length) ∧
    ((OptWorker.tick sqrt s).2.map (fun sn => sn.bodies.length) = some 64) ∧
    (∀ i, i < s.bodies.length →
      (OptWorker.tick sqrt s).2.map (fun sn => sn.bodies.getD i (blankSnap (R := R))) =
        some (((OptWorker.tick sqrt s).1.bodies.getD i (dummyBody R)).toSnap)) ∧
    (∀ t : ObjWorker R, t.isPaused = false → t.bodies.length ≠ 0 →
      (ObjWorker.tick sqrt t).2 =
        some ((ObjWorker.tick sqrt t).1.bodies.map Body.toSnap) ∧
      ((ObjWorker.tick sqrt t).1.bodies.map Body.toSnap).length = t.bodies.length) := by
  have htick : OptWorker.tick sqrt s =
      (let substeps := substepsFor s.bodies.length
       let dt := s.timeScale * (2 / 125) / (substeps : R)
       let bodies := (fun b => integrateLeapfrog sqrt s.g dt b)^[substeps] s.bodies
       let out := writeOutput s.output bodies
       ({ s with bodies := bodies, output := out }, some ⟨out, bodies.length⟩)) := by
    unfold OptWorker.tick
    rw [if_pos h]
  have hlen : ((fun b => integrateLeapfrog sqrt s.g
      (s.timeScale * (2 / 125) / (substepsFor s.bodies.length : R))
      b)^[substepsFor s.bodies.length] s.bodies).length = s.bodies.length :=
    integrateLeapfrog_iterate_length ..
  refine ⟨?_, ?_, ?_, ?_⟩
  · rw [htick]
    exact congrArg some hlen
  · rw [htick]
    exact congrArg some (by simp [writeOutput_length, hout])
  · intro i hi
    rw [htick]
    exact congrArg some (writeOutput_getD s.output _ i
      (by rw [hlen]; exact hi) (by rw [hout]; omega))
  · intro t hp hn
    have htick2 : ObjWorker.tick sqrt t =
        (let dt := t.timeScale * (2 / 125)
         let bodies := simulateStep sqrt (gRK4 (R := R)) t.bodies dt
         ({ t with bodies := bodies }, some (bodies.map Body.toSnap))) := by
      unfold ObjWorker.tick
      rw [if_neg (by rw [hp]; exact Bool.false_ne_true), if_neg hn]
    rw [htick2]
    refine ⟨rfl, ?_⟩
    simp only [List.length_map]
    exact simulateStep_length ..

/-- Witness for `C7_snapshot_contents` at the concrete running two-body
state. -/
theorem C7_snapshot_contents_witness :
    (¬sampleOptWorker.isPaused ∧ sampleOptWorker.bodies.length ≠ 0) ∧
    sampleOptWorker.output.length = 64 ∧
    sampleOptWorker.bodies.length ≤ 64 ∧
    (OptWorker.tick id sampleOptWorker).2.map Snapshot.bodyCount =
      some sampleOptWorker.bodies.length :=
  ⟨by decide, by decide, by decide,
    (C7_snapshot_contents id sampleOptWorker (by decide) (by decide) (by decide)).1⟩

/-- C7 counterexample: with a single active body, the posted snapshot's
`bodies` array still has 64 entries (the pre-allocated pool, including slots
belonging to no active body), so the snapshot does not contain exactly one
entry per active body. -/
theorem C7_counterexample :
    (OptWorker.tick id oneBodyOptWorker).2.map
        (fun sn => (sn.bodies.length, sn.bodyCount)) = some (64, 1) := by
  decide

end ClaimC7

section MapLemmas

variable {α β : Type}

theorem range_map_getD (d : α) (l : List α) (g : α → β) :
    (List.range l.length).map (fun i => g (l.getD i d)) = l.map g := by
  apply List.ext_getElem
  · simp
  · intro j h1 h2
    simp only [List.getElem_map, List.getElem_range]
    rw [List.getD_eq_getElem]

theorem getD_map_of_lt (d : β) (d' : α) (g : α → β) (l : List α) (i : ℕ)
    (hi : i < l.length) : (l.map g).getD i d = g (l.getD i d') := by
  rw [List.getD_eq_getElem _ _ (by rw [List.length_map]; exact hi),
    List.getElem_map, List.getD_eq_getElem _ _ hi]

theorem foldl_append_singleton (f : ℕ → β) :
    ∀ (l : List ℕ) (init : List β),
      l.foldl (fun acc i => acc ++ [f i]) init = init ++ l.map f := by
  intro l
  induction l with
  | nil => intro init; simp
  | cons a t ih =>
    intro init
    rw [List.foldl_cons, ih]
    simp

theorem snapshotMap_snapshotMap (d : α) (f2 f1 : ℕ → α → α) (l : List α) :
    snapshotMap d f2 (snapshotMap d f1 l) =
      (List.range l.length).map (fun i => f2 i (f1 i (l.getD i d))) := by
  have hlen : (snapshotMap d f1 l).length = l.length := snapshotMap_length ..
  show (List.range (snapshotMap d f1 l).length).map
      (fun i => f2 i ((snapshotMap d f1 l).getD i d)) = _
  rw [hlen]
  apply List.map_congr_left
  intro i hi
  rw [List.mem_range] at hi
  rw [snapshotMap_getD, if_pos hi]

end MapLemmas

section IntegratorLemmas

variable {R : Type} [LinearOrderedField R] (sqrt : R → R)

theorem buildUpdates_eq_map (g dt : R) (bodies : List (Body R)) :
    buildUpdates sqrt g bodies dt =
      bodies.map (fun b => rk4Step sqrt g b bodies dt) := by
  unfold buildUpdates
  rw [foldl_append_singleton]
  rw [List.nil_append]
  exact range_map_getD (dummyBody R) bodies (fun b => rk4Step sqrt g b bodies dt)

theorem simulateStep_eq_map (g dt : R) (bodies : List (Body R)) :
    simulateStep sqrt g bodies dt =
      bodies.map (fun b => applyUpdate b (rk4Step sqrt g b bodies dt)) := by
  unfold simulateStep
  rw [inPlaceMap_range]
  show (List.range bodies.length).map _ = _
  rw [← range_map_getD (dummyBody R) bodies
    (fun b => applyUpdate b (rk4Step sqrt g b bodies dt))]
  apply List.map_congr_left
  intro i hi
  rw [List.mem_range] at hi
  dsimp only
  rw [buildUpdates_eq_map, getD_map_of_lt _ (dummyBody R) _ _ _ hi]

theorem integrateLeapfrog_eq_snapshot_form (g dt : R) (bodies : List (Body R)) :
    integrateLeapfrog sqrt g dt bodies =
      (List.range bodies.length).map
        (fun i =>
          kick (dt * (1 / 2))
            ((computeAccelerations sqrt g
                ((leapfrogHalf sqrt g dt bodies).map (·.position))
                ((leapfrogHalf sqrt g dt bodies).map (·.mass))).getD i 0)
            ((leapfrogHalf sqrt g dt bodies).getD i (dummyBody R))) := by
  unfold integrateLeapfrog leapfrogHalf
  simp only [inPlaceMap_range]
  simp only [snapshotMap_snapshotMap]
  have hlen : ((List.range bodies.length).map
      (fun i =>
        drift dt
          (kick (dt * (1 / 2))
            ((computeAccelerations sqrt g (bodies.map (·.position))
                (bodies.map (·.mass))).getD i 0)
            (bodies.getD i (dummyBody R))))).length = bodies.length := by
    rw [List.length_map, List.length_range]
  show snapshotMap (dummyBody R) _ _ = _
  unfold snapshotMap
  rw [hlen]

end IntegratorLemmas

section ClaimC2

/-- C2 (confirmed): one integration step updates all bodies simultaneously.
In the object worker's `simulate`, the update-building loop reads only the
untouched `bodies` array and the apply loop writes each slot from the
precomputed updates, so the whole step equals a per-body pure function of the
step-start snapshot.  In the typed-array `integrateLeapfrog`, each in-place
phase loop equals a map over its phase-start snapshot, so the step equals the
composition of per-body functions of the step-start snapshot (`leapfrogHalf`).
And processing bodies in any order inside the apply loop — any permutation of
`0..n-1` — produces the same final state. -/
theorem C2_simultaneous_update {R : Type} [LinearOrderedField R] (sqrt : R → R)
    (g dt : R) (bodies : List (Body R)) :
    (simulateStep sqrt g bodies dt =
      bodies.map (fun b => applyUpdate b (rk4Step sqrt g b bodies dt))) ∧
    (integrateLeapfrog sqrt g dt bodies =
      (List.range bodies.length).map
        (fun i =>
          kick (dt * (1 / 2))
            ((computeAccelerations sqrt g
                ((leapfrogHalf sqrt g dt bodies).map (·.position))
                ((leapfrogHalf sqrt g dt bodies).map (·.mass))).getD i 0)
            ((leapfrogHalf sqrt g dt bodies).getD i (dummyBody R)))) ∧
    (∀ order : List ℕ, order.Perm (List.range bodies.length) →
      inPlaceMap (dummyBody R)
        (fun i b => applyUpdate b ((buildUpdates sqrt g bodies dt).getD i
          ⟨0, 0⟩)) bodies order = simulateStep sqrt g bodies dt) := by
  refine ⟨simulateStep_eq_map sqrt g dt bodies,
    integrateLeapfrog_eq_snapshot_form sqrt g dt bodies, ?_⟩
  intro order hperm
  rw [inPlaceMap_perm_range _ _ _ _ hperm]
  unfold simulateStep
  rw [inPlaceMap_range]

/-- Witness for `C2_simultaneous_update`: applying the updates in reversed
slot order on the concrete two-body state gives the same step result. -/
theorem C2_simultaneous_update_witness :
    ([1, 0].Perm (List.range sampleBodies.length)) ∧
    inPlaceMap (dummyBody ℚ)
      (fun i b => applyUpdate b ((buildUpdates id 1 sampleBodies 1).getD i
        ⟨0, 0⟩)) sampleBodies [1, 0] = simulateStep id 1 sampleBodies 1 :=
  ⟨by decide, (C2_simultaneous_update id 1 1 sampleBodies).2.2 [1, 0] (by decide)⟩

end ClaimC2

section ClaimC3

/-- C3 (corrected, amended part): the object worker's `rk4Step` is the
textbook four-stage RK4 written by the spec — it equals `specRK4SingleStep`
stage for stage, including the endpoint built from `k3` and the weighted
average `(k1 + 2k2 + 2k3 + k4)/6 * dt`.  The typed-array `integrateRK4` also
runs exactly four kernel evaluations and combines them with the standard
weighted average as a pure per-body function of the start snapshot, but its
fourth evaluation happens at `rk4TrialEnd` — position
`p0 + dt * (v0 + dt * k2a)`, built from the `k2` acceleration with a full
`dt` — instead of the spec's endpoint built from `k3`
(`p0 + dt * (v0 + (dt/2) * k2a)`). -/
theorem C3_rk4_stages {R : Type} [LinearOrderedField R] (sqrt : R → R)
    (g dt : R) (body : Body R) (allBodies bodies : List (Body R)) :
    (rk4Step sqrt g body allBodies dt = specRK4SingleStep sqrt g body allBodies dt) ∧
    (integrateRK4 sqrt g dt bodies =
      (let dt2 := dt * (1 / 2)
       let dt6 := dt / 6
       let p0 := bodies.map (·.position)
       let v0 := bodies.map (·.velocity)
       let ms := bodies.map (·.mass)
       let k1 := computeAccelerations sqrt g p0 ms
       let k2 := computeAccelerations sqrt g (rk4TrialMid1 dt p0 v0) ms
       let k3 := computeAccelerations sqrt g (rk4TrialMid2 dt p0 v0 k1) ms
       let k4 := computeAccelerations sqrt g (rk4TrialEnd dt p0 v0 k2) ms
       (List.range bodies.length).map
         (fun i =>
           { bodies.getD i (dummyBody R) with
             velocity := v0.getD i 0 +
               dt6 • (k1.getD i 0 + (2 : R) • k2.getD i 0 + (2 : R) • k3.getD i 0 +
                 k4.getD i 0),
             position := p0.getD i 0 +
               dt6 • (v0.getD i 0 + (2 : R) • (v0.getD i 0 + dt2 • k1.getD i 0) +
                 (2 : R) • (v0.getD i 0 + dt2 • k2.getD i 0) +
                 (v0.getD i 0 + dt • k3.getD i 0)) }))) := by
  constructor
  · rfl
  · unfold integrateRK4
    rw [inPlaceMap_range]
    rfl

/-- C3 counterexample: the claim requires the fourth stage derivative to be
the acceleration kernel run at the endpoint trial state built from `k3`,
whose positions are `p0 + dt * (v0 + (dt/2) * k2v)` (`specRK4EndpointTrial`).
For the concrete two-body state at rest below, the trial position array the
typed-array worker actually hands to its fourth kernel evaluation
(`vxEnd = vx0 + k2ax * dt; tmpPx = px0 + vxEnd * dt`, i.e. `rk4TrialEnd`
applied to the pipeline's own `k2`) differs from that state. -/
theorem C3_counterexample :
    rk4TrialEnd (1 : ℝ) [⟨0, 0, 0⟩, ⟨1, 0, 0⟩] [⟨0, 0, 0⟩, ⟨0, 0, 0⟩]
        (computeAccelerations Real.sqrt 1
          (rk4TrialMid1 1 [⟨0, 0, 0⟩, ⟨1, 0, 0⟩] [⟨0, 0, 0⟩, ⟨0, 0, 0⟩]) [1, 1]) ≠
      specRK4EndpointTrial 1 [⟨0, 0, 0⟩, ⟨1, 0, 0⟩] [⟨0, 0, 0⟩, ⟨0, 0, 0⟩]
        (computeAccelerations Real.sqrt 1
          (rk4TrialMid1 1 [⟨0, 0, 0⟩, ⟨1, 0, 0⟩] [⟨0, 0, 0⟩, ⟨0, 0, 0⟩]) [1, 1]) := by
  have hmid : rk4TrialMid1 (1 : ℝ) [⟨0, 0, 0⟩, ⟨1, 0, 0⟩] [⟨0, 0, 0⟩, ⟨0, 0, 0⟩] =
      [⟨0, 0, 0⟩, ⟨1, 0, 0⟩] := by
    simp [rk4TrialMid1, List.range_succ, Vec3.ext_iff]
  rw [hmid]
  intro heq
  have hx := congrArg (fun l => (l.getD 0 (0 : Vec3 ℝ)).x) heq
  simp only [rk4TrialEnd, specRK4EndpointTrial, List.length_cons, List.length_nil,
    List.range_succ, List.range_zero, List.nil_append, List.singleton_append,
    List.map_cons, List.map_nil, List.getD_cons_zero, List.getD_cons_succ] at hx
  simp only [Vec3.add_x, Vec3.smul_x, Vec3.mk_x, Vec3.zero_x] at hx
  norm_num at hx
  have hpos : 0 < ((computeAccelerations Real.sqrt 1
      [(⟨0, 0, 0⟩ : Vec3 ℝ), ⟨1, 0, 0⟩] [1, 1])[0]?.getD 0).x := by
    show 0 < ((computeAccelerations Real.sqrt 1
      [(⟨0, 0, 0⟩ : Vec3 ℝ), ⟨1, 0, 0⟩] [1, 1]).getD 0 (0 : Vec3 ℝ)).x
    simp only [computeAccelerations, accelContrib, SOFTENING_SQ, List.length_cons,
      List.length_nil, List.range_succ, List.range_zero, List.nil_append,
      List.singleton_append, List.map_cons, List.map_nil, List.foldl_cons,
      List.foldl_nil, List.getD_cons_zero, List.getD_cons_succ]
    norm_num
  linarith

end ClaimC3

section KernelLemmas

theorem foldl_add_range {M : Type} [AddCommMonoid M] (f : ℕ → M) :
    ∀ (n : ℕ) (init : M),
      (List.range n).foldl (fun acc j => acc + f j) init =
        init + ∑ j ∈ Finset.range n, f j := by
  intro n
  induction n with
  | zero => intro init; simp
  | succ n ih =>
    intro init
    rw [List.range_succ, List.foldl_append, List.foldl_cons, List.foldl_nil, ih,
      Finset.sum_range_succ, add_assoc]

theorem foldl_congr_fn {γ δ : Type} (l : List γ) (f1 f2 : δ → γ → δ) (a : δ)
    (h : ∀ (b : δ) (x : γ), x ∈ l → f1 b x = f2 b x) :
    l.foldl f1 a = l.foldl f2 a := by
  induction l generalizing a with
  | nil => rfl
  | cons c t ih =>
    rw [List.foldl_cons, List.foldl_cons, h a c (List.mem_cons_self c t)]
    exact ih _ (fun b x hx => h b x (List.mem_cons_of_mem c hx))

variable {R : Type} [LinearOrderedField R] (sqrt : R → R)

theorem accelContrib_self (g m : R) (a : Vec3 R) :
    accelContrib sqrt g m a a = 0 := by
  unfold accelContrib
  ext <;> simp

theorem accelContrib_zero_mass (g : R) (a b : Vec3 R) :
    accelContrib sqrt g 0 a b = 0 := by
  unfold accelContrib
  ext <;> simp

/-- The `i`-th output of `computeAccelerations` as a big sum: the left-to-right
accumulation of the inner `j` loop, with the `i = j` skip as a zero term. -/
theorem computeAccelerations_getD (g : R) (pos : List (Vec3 R)) (ms : List R)
    (i : ℕ) (hi : i < pos.length) :
    (computeAccelerations sqrt g pos ms).getD i 0 =
      ∑ j ∈ Finset.range pos.length,
        (if i = j then 0
         else accelContrib sqrt g (ms.getD j 0) (pos.getD i 0) (pos.getD j 0)) := by
  unfold computeAccelerations
  rw [List.getD_eq_getElem _ _ (by simpa using hi), List.getElem_map,
    List.getElem_range]
  have hfn : (fun (acc : Vec3 R) j =>
        if i = j then acc
        else acc + accelContrib sqrt g (ms.getD j 0) (pos.getD i 0) (pos.getD j 0)) =
      (fun acc j => acc +
        (if i = j then 0
         else accelContrib sqrt g (ms.getD j 0) (pos.getD i 0) (pos.getD j 0))) := by
    funext acc j
    split_ifs <;> simp
  rw [hfn, foldl_add_range, zero_add]

theorem rpow_three_halves {s : ℝ} (hs : 0 < s) :
    s ^ ((3 : ℝ) / 2) = s * Real.sqrt s := by
  rw [show ((3 : ℝ) / 2) = 1 + 1 / 2 by norm_num, Real.rpow_add hs, Real.rpow_one,
    ← Real.sqrt_eq_rpow]

theorem dist2_add_softening_pos (a b : Vec3 ℝ) :
    0 < dist2 a b + SOFTENING_SQ := by
  unfold dist2 SOFTENING_SQ
  have h1 := mul_self_nonneg (b.x - a.x)
  have h2 := mul_self_nonneg (b.y - a.y)
  have h3 := mul_self_nonneg (b.z - a.z)
  linarith

/-- One inner-loop term of the typed-array kernel equals the spec's softened
inverse-cube term `G * m_j * (p_j − p_i) / (|p_j − p_i|² + ε)^(3/2)`. -/
theorem accelContrib_eq_spec_term (g m : ℝ) (a b : Vec3 ℝ) :
    accelContrib Real.sqrt g m a b =
      (g * m / ((dist2 a b + SOFTENING_SQ) ^ ((3 : ℝ) / 2))) • (b - a) := by
  have hs : (0 : ℝ) < dist2 a b + SOFTENING_SQ := dist2_add_softening_pos a b
  have hr := rpow_three_halves hs
  unfold accelContrib
  unfold dist2 at hr ⊢
  ext
  · simp only [Vec3.smul_x, Vec3.sub_x, Vec3.mk_x]
    rw [hr]
    ring
  · simp only [Vec3.smul_y, Vec3.sub_y, Vec3.mk_y]
    rw [hr]
    ring
  · simp only [Vec3.smul_z, Vec3.sub_z, Vec3.mk_z]
    rw [hr]
    ring

end KernelLemmas

section ClaimC1

/-- C1 (corrected, amended part): the typed-array kernel
`computeAccelerations` returns, for each body `i`, exactly the claim's sum
over all `j ≠ i` of `G * mass_j * (pos_j − pos_i) / (|pos_j − pos_i|² + ε)^(3/2)`
with `ε = 1e-6` added to the squared distance before the inverse-cube factor;
the denominator base is strictly positive for every pair (so the expression
is well defined even for coincident bodies, whose pair contribution is zero).
The object worker's `calculateAcceleration`, however, uses no softening at
all: it skips any pair with squared distance `≤ 1e-6` and applies the
unsoftened inverse-square law otherwise (see the counterexample). -/
theorem C1_softened_inverse_cube (g : ℝ) (pos : List (Vec3 ℝ)) (ms : List ℝ)
    (i : ℕ) (hi : i < pos.length) :
    ((computeAccelerations Real.sqrt g pos ms).getD i 0 =
      ∑ j ∈ (Finset.range pos.length).erase i,
        (g * ms.getD j 0 /
            ((dist2 (pos.getD i 0) (pos.getD j 0) + SOFTENING_SQ) ^ ((3 : ℝ) / 2))) •
          (pos.getD j 0 - pos.getD i 0)) ∧
    (∀ a b : Vec3 ℝ, 0 < dist2 a b + SOFTENING_SQ) ∧
    (∀ (m : ℝ) (a : Vec3 ℝ), accelContrib Real.sqrt g m a a = 0) := by
  refine ⟨?_, fun a b => dist2_add_softening_pos a b,
    fun m a => accelContrib_self Real.sqrt g m a⟩
  rw [computeAccelerations_getD Real.sqrt g pos ms i hi]
  rw [show (∑ j ∈ Finset.range pos.length,
      (if i = j then 0
       else accelContrib Real.sqrt g (ms.getD j 0) (pos.getD i 0) (pos.getD j 0))) =
    ∑ j ∈ (Finset.range pos.length).erase i,
      (if i = j then 0
       else accelContrib Real.sqrt g (ms.getD j 0) (pos.getD i 0) (pos.getD j 0))
    from (Finset.sum_erase _ (by simp)).symm]
  apply Finset.sum_congr rfl
  intro j hj
  have hji : j ≠ i := Finset.ne_of_mem_erase hj
  rw [if_neg (fun hc => hji hc.symm)]
  exact accelContrib_eq_spec_term g (ms.getD j 0) (pos.getD i 0) (pos.getD j 0)

/-- Witness for `C1_softened_inverse_cube` at a concrete two-body
configuration. -/
theorem C1_softened_inverse_cube_witness :
    ((0 : ℕ) < ([⟨0, 0, 0⟩, ⟨1, 0, 0⟩] : List (Vec3 ℝ)).length) ∧
    accelContrib Real.sqrt (1 : ℝ) 1 ⟨0, 0, 0⟩ ⟨0, 0, 0⟩ = 0 :=
  ⟨by simp,
    (C1_softened_inverse_cube 1 [⟨0, 0, 0⟩, ⟨1, 0, 0⟩] [1, 1] 0 (by simp)).2.2 1
      ⟨0, 0, 0⟩⟩

/-- C1 counterexample: the object worker's `calculateAcceleration` does not
compute the claim's softened sum.  For a probe at the origin and a unit-mass
planet at distance `1e-4` (squared distance `1e-8 ≤ 1e-6`), the kernel skips
the pair and returns zero acceleration, while the claimed formula — the sum
over `j ≠ i` of `G * m_j * (p_j − p_i) / (|p_j − p_i|² + ε)^(3/2)` at the same
configuration — is nonzero. -/
theorem C1_counterexample :
    (calculateAcceleration Real.sqrt (gRK4 (R := ℝ)) "probe" ⟨0, 0, 0⟩
        [⟨"probe", 0, ⟨0, 0, 0⟩, ⟨0, 0, 0⟩⟩,
         ⟨"planet", 1, ⟨1 / 10000, 0, 0⟩, ⟨0, 0, 0⟩⟩] = 0) ∧
    (∑ j ∈ (Finset.range 2).erase 0,
        ((gRK4 (R := ℝ)) * (([0, 1] : List ℝ).getD j 0) /
            ((dist2 (([⟨0, 0, 0⟩, ⟨1 / 10000, 0, 0⟩] : List (Vec3 ℝ)).getD 0 0)
                (([⟨0, 0, 0⟩, ⟨1 / 10000, 0, 0⟩] : List (Vec3 ℝ)).getD j 0) +
              SOFTENING_SQ) ^ ((3 : ℝ) / 2))) •
          ((([⟨0, 0, 0⟩, ⟨1 / 10000, 0, 0⟩] : List (Vec3 ℝ)).getD j 0) -
            ([⟨0, 0, 0⟩, ⟨1 / 10000, 0, 0⟩] : List (Vec3 ℝ)).getD 0 0)) ≠ 0 := by
  constructor
  · unfold calculateAcceleration
    rw [List.foldl_cons, List.foldl_cons, List.foldl_nil]
    rw [if_pos rfl]
    rw [if_neg (by decide)]
    rw [if_neg (by norm_num)]
  · rw [show (Finset.range 2).erase 0 = {1} by decide]
    rw [Finset.sum_singleton]
    intro hc
    have hx := congrArg Vec3.x hc
    rw [Vec3.smul_x, Vec3.sub_x, Vec3.zero_x] at hx
    have hs : (0 : ℝ) <
        dist2 (([⟨0, 0, 0⟩, ⟨1 / 10000, 0, 0⟩] : List (Vec3 ℝ)).getD 0 0)
          (([⟨0, 0, 0⟩, ⟨1 / 10000, 0, 0⟩] : List (Vec3 ℝ)).getD 1 0) +
          SOFTENING_SQ := dist2_add_softening_pos _ _
    have hpow : (0 : ℝ) <
        (dist2 (([⟨0, 0, 0⟩, ⟨1 / 10000, 0, 0⟩] : List (Vec3 ℝ)).getD 0 0)
          (([⟨0, 0, 0⟩, ⟨1 / 10000, 0, 0⟩] : List (Vec3 ℝ)).getD 1 0) +
          SOFTENING_SQ) ^ ((3 : ℝ) / 2) := Real.rpow_pos_of_pos hs _
    have hnum : (0 : ℝ) < gRK4 (R := ℝ) * (([0, 1] : List ℝ).getD 1 0) := by
      norm_num [gRK4]
    have hdx : ((([⟨0, 0, 0⟩, ⟨1 / 10000, 0, 0⟩] : List (Vec3 ℝ)).getD 1 0).x -
        (([⟨0, 0, 0⟩, ⟨1 / 10000, 0, 0⟩] : List (Vec3 ℝ)).getD 0 0).x) = 1 / 10000 := by
      norm_num
    rw [hdx] at hx
    have : 0 < gRK4 (R := ℝ) * (([0, 1] : List ℝ).getD 1 0) /
        ((dist2 (([⟨0, 0, 0⟩, ⟨1 / 10000, 0, 0⟩] : List (Vec3 ℝ)).getD 0 0)
          (([⟨0, 0, 0⟩, ⟨1 / 10000, 0, 0⟩] : List (Vec3 ℝ)).getD 1 0) +
          SOFTENING_SQ) ^ ((3 : ℝ) / 2)) * (1 / 10000) := by
      apply mul_pos (div_pos hnum hpow)
      norm_num
    linarith

end ClaimC1

section LegacyKernelLemmas

/-- For a body of nonzero mass the legacy kernel's `forcePerMass`
(`G*m1*m2/r² / m1`) cancels the own mass, giving the newer kernel's
`G*m2/r²`; the two object-worker kernels then agree term by term. -/
theorem legacy_eq_newer_of_mass_ne_zero (g : ℝ) (selfId : String) (m : ℝ)
    (p : Vec3 ℝ) (bodies : List (Body ℝ)) (hm : m ≠ 0) :
    legacyCalculateAcceleration Real.sqrt g selfId m p bodies =
      calculateAcceleration Real.sqrt g selfId p bodies := by
  unfold legacyCalculateAcceleration calculateAcceleration
  apply foldl_congr_fn
  intro acc body _
  by_cases hid : selfId = body.id
  · rw [if_pos hid, if_pos hid]
  · rw [if_neg hid, if_neg hid]
    dsimp only
    set q := (body.position.x - p.x) * (body.position.x - p.x) +
      (body.position.y - p.y) * (body.position.y - p.y) +
      (body.position.z - p.z) * (body.position.z - p.z) with hqdef
    by_cases hq : q > 1 / 1000000
    · rw [if_pos hq, if_pos hq]
      have key : g * m * body.mass / q / m = g * body.mass / q := by
        rw [div_div, mul_comm q m,
          show g * m * body.mass = m * (g * body.mass) from by ring,
          mul_div_mul_left _ _ hm]
      rw [key]
    · rw [if_neg hq, if_neg hq]

end LegacyKernelLemmas

section ClaimC4

/-- C4 (corrected, amended part), stated for the typed-array kernel
`computeAccelerations` only: the acceleration of body `i` does not depend on
body `i`'s own mass (changing it leaves `a_i` unchanged), and the whole
influence of a source body `j` on `a_i` is its single kernel term, which
vanishes when `j`'s mass is set to zero — so a zero-mass probe receives the
same acceleration any body at that position would, while contributing exactly
zero to every other body; and in a two-body configuration with one
positive-mass planet at a distinct position, the probe's acceleration is
moreover nonzero.  Of the object kernels, only this much holds: the legacy
kernel agrees with the newer kernel (whose magnitude `G*m_other/r²` never
reads the own mass) for every nonzero own mass — but not at own mass exactly
zero, where its `force/ownMass` form is `0/0` (see the counterexample); the
two-body-nonzero property does not carry over to the object kernels, whose
cutoff skips pairs with squared distance `≤ 1e-6` (e.g. a planet at distance
`1e-4` exerts no pull there at all). -/
theorem C4_zero_mass_probe (g : ℝ) :
    (∀ (pos : List (Vec3 ℝ)) (ms : List ℝ) (i : ℕ) (x : ℝ), i < pos.length →
      (computeAccelerations Real.sqrt g pos (ms.set i x)).getD i 0 =
        (computeAccelerations Real.sqrt g pos ms).getD i 0) ∧
    (∀ (pos : List (Vec3 ℝ)) (ms : List ℝ) (i j : ℕ),
      i < pos.length → j < pos.length →
      (computeAccelerations Real.sqrt g pos (ms.set j 0)).getD i 0 +
        accelContrib Real.sqrt g (ms.getD j 0) (pos.getD i 0) (pos.getD j 0) =
        (computeAccelerations Real.sqrt g pos ms).getD i 0) ∧
    (∀ (selfId : String) (m : ℝ) (p : Vec3 ℝ) (bodies : List (Body ℝ)), m ≠ 0 →
      legacyCalculateAcceleration Real.sqrt g selfId m p bodies =
        calculateAcceleration Real.sqrt g selfId p bodies) ∧
    (∀ (M : ℝ) (p q : Vec3 ℝ), 0 < g → 0 < M → p ≠ q →
      (computeAccelerations Real.sqrt g [p, q] [0, M]).getD 0 0 ≠ 0) := by
  refine ⟨?_, ?_, fun selfId m p bodies hm =>
    legacy_eq_newer_of_mass_ne_zero g selfId m p bodies hm, ?_⟩
  · intro pos ms i x hi
    rw [computeAccelerations_getD Real.sqrt g pos (ms.set i x) i hi,
      computeAccelerations_getD Real.sqrt g pos ms i hi]
    apply Finset.sum_congr rfl
    intro j _
    by_cases hij : i = j
    · rw [if_pos hij, if_pos hij]
    · rw [if_neg hij, if_neg hij, getD_set_ne ms hij x 0]
  · intro pos ms i j hi hj
    rw [computeAccelerations_getD Real.sqrt g pos (ms.set j 0) i hi,
      computeAccelerations_getD Real.sqrt g pos ms i hi]
    by_cases hij : i = j
    · subst hij
      rw [accelContrib_self, add_zero]
      apply Finset.sum_congr rfl
      intro k _
      by_cases hik : i = k
      · rw [if_pos hik, if_pos hik]
      · rw [if_neg hik, if_neg hik, getD_set_ne ms hik 0 0]
    · by_cases hjm : j < ms.length
      · have hjmem : j ∈ Finset.range pos.length := Finset.mem_range.mpr hj
        rw [← Finset.add_sum_erase _ _ hjmem, ← Finset.add_sum_erase _ _ hjmem]
        rw [if_neg hij, if_neg hij]
        rw [getD_set_self ms j 0 0, if_pos hjm, accelContrib_zero_mass]
        have hsum : ∑ k ∈ (Finset.range pos.length).erase j,
            (if i = k then 0
             else accelContrib Real.sqrt g ((ms.set j 0).getD k 0) (pos.getD i 0)
               (pos.getD k 0)) =
          ∑ k ∈ (Finset.range pos.length).erase j,
            (if i = k then 0
             else accelContrib Real.sqrt g (ms.getD k 0) (pos.getD i 0)
               (pos.getD k 0)) := by
          apply Finset.sum_congr rfl
          intro k hk
          have hkj : j ≠ k := fun hc => (Finset.ne_of_mem_erase hk) hc.symm
          by_cases hik : i = k
          · rw [if_pos hik, if_pos hik]
          · rw [if_neg hik, if_neg hik, getD_set_ne ms hkj 0 0]
        rw [hsum, zero_add, add_comm]
      · rw [List.set_eq_of_length_le (Nat.le_of_not_lt hjm),
          List.getD_eq_default _ _ (Nat.le_of_not_lt hjm), accelContrib_zero_mass,
          add_zero]
  · intro M p q hg hM hpq
    have hterm : (computeAccelerations Real.sqrt g [p, q] [0, M]).getD 0 0 =
        accelContrib Real.sqrt g M p q := by
      rw [computeAccelerations_getD Real.sqrt g [p, q] [0, M] 0 (by simp)]
      show ∑ j ∈ Finset.range 2, _ = _
      rw [Finset.sum_range_succ, Finset.sum_range_succ, Finset.sum_range_zero]
      rw [if_pos rfl, if_neg (by omega)]
      simp
    rw [hterm]
    intro hcontra
    unfold accelContrib at hcontra
    have hx := congrArg Vec3.x hcontra
    have hy := congrArg Vec3.y hcontra
    have hz := congrArg Vec3.z hcontra
    simp only [Vec3.mk_x, Vec3.mk_y, Vec3.mk_z, Vec3.zero_x, Vec3.zero_y,
      Vec3.zero_z] at hx hy hz
    have hs : (0 : ℝ) < (q.x - p.x) * (q.x - p.x) + (q.y - p.y) * (q.y - p.y) +
        (q.z - p.z) * (q.z - p.z) + SOFTENING_SQ := by
      have := dist2_add_softening_pos p q
      unfold dist2 at this
      exact this
    have hsq : (0 : ℝ) < Real.sqrt ((q.x - p.x) * (q.x - p.x) +
        (q.y - p.y) * (q.y - p.y) + (q.z - p.z) * (q.z - p.z) + SOFTENING_SQ) :=
      Real.sqrt_pos.mpr hs
    have hc : (0 : ℝ) < g * M * (1 / (((q.x - p.x) * (q.x - p.x) +
        (q.y - p.y) * (q.y - p.y) + (q.z - p.z) * (q.z - p.z) + SOFTENING_SQ) *
        Real.sqrt ((q.x - p.x) * (q.x - p.x) + (q.y - p.y) * (q.y - p.y) +
          (q.z - p.z) * (q.z - p.z) + SOFTENING_SQ))) :=
      mul_pos (mul_pos hg hM) (one_div_pos.mpr (mul_pos hs hsq))
    apply hpq
    ext
    · have := (mul_eq_zero.mp hx).resolve_left (ne_of_gt hc)
      linarith
    · have := (mul_eq_zero.mp hy).resolve_left (ne_of_gt hc)
      linarith
    · have := (mul_eq_zero.mp hz).resolve_left (ne_of_gt hc)
      linarith

/-- Witness for `C4_zero_mass_probe`: the two-body conjunct at a concrete
probe/planet pair, and the legacy/newer kernel agreement at own mass 1. -/
theorem C4_zero_mass_probe_witness :
    ((0 : ℝ) < 1 ∧ (⟨0, 0, 0⟩ : Vec3 ℝ) ≠ ⟨1, 0, 0⟩) ∧
    (computeAccelerations Real.sqrt 1 [⟨0, 0, 0⟩, ⟨1, 0, 0⟩]
      [0, 1]).getD 0 0 ≠ 0 :=
  ⟨⟨by norm_num, by simp [Vec3.ext_iff]⟩,
    (C4_zero_mass_probe 1).2.2.2 1 ⟨0, 0, 0⟩ ⟨1, 0, 0⟩ (by norm_num) (by norm_num)
      (by simp [Vec3.ext_iff])⟩

/-- C4 counterexample: with the legacy kernel, a body of mass exactly zero
receives zero acceleration (`0/0` force-per-mass; `NaN` in JavaScript), while
a body of mass one at the same position receives a nonzero acceleration — so
the zero-mass body's acceleration is neither nonzero nor independent of its
own mass, contradicting the claim for this kernel. -/
theorem C4_counterexample :
    (legacyCalculateAcceleration Real.sqrt (gLegacy (R := ℝ)) "probe" 0 ⟨0, 0, 0⟩
        [⟨"probe", 0, ⟨0, 0, 0⟩, ⟨0, 0, 0⟩⟩,
         ⟨"planet", 1, ⟨1, 0, 0⟩, ⟨0, 0, 0⟩⟩] = 0) ∧
    (legacyCalculateAcceleration Real.sqrt (gLegacy (R := ℝ)) "probe" 1 ⟨0, 0, 0⟩
        [⟨"probe", 0, ⟨0, 0, 0⟩, ⟨0, 0, 0⟩⟩,
         ⟨"planet", 1, ⟨1, 0, 0⟩, ⟨0, 0, 0⟩⟩] ≠ 0) := by
  constructor
  · unfold legacyCalculateAcceleration
    rw [List.foldl_cons, List.foldl_cons, List.foldl_nil]
    rw [if_pos rfl, if_neg (by decide), if_pos (by norm_num)]
    ext <;> norm_num
  · unfold legacyCalculateAcceleration
    rw [List.foldl_cons, List.foldl_cons, List.foldl_nil]
    rw [if_pos rfl, if_neg (by decide), if_pos (by norm_num)]
    intro hc
    have hx := congrArg Vec3.x hc
    simp only [Vec3.add_x, Vec3.mk_x, Vec3.zero_x] at hx
    rw [show ((⟨1, 0, 0⟩ : Vec3 ℝ).x - (⟨0, 0, 0⟩ : Vec3 ℝ).x) = 1 from by norm_num]
      at hx
    norm_num [Real.sqrt_one, gLegacy] at hx

end ClaimC4

end GravityAssist
